import Mathlib

/-!
Verification of the kubeai-autoscaler scaling engine against its specification.

The Go sources are shallowly embedded: float64 values become rationals,
int32 values become integers, pointer-typed optional values become Option,
and fallible operations return Option or Except.  Go division by zero on
floats yields an infinity; rational division by zero yields 0 in this
embedding, and every place where that matters is called out in the
corresponding doc comment.
-/

set_option autoImplicit false

namespace Scaling

/-- Embeds ScalingInput from pkg/scaling/algorithm.go (lines 34 to 43). -/
structure ScalingInput where
  CurrentReplicas : Int
  MinReplicas : Int
  MaxReplicas : Int
  MetricRatios : List ℚ
  Tolerance : ℚ
  PolicyName : String
  PolicyNamespace : String
  deriving Repr, DecidableEq

/-- Embeds ScalingResult from pkg/scaling/algorithm.go (lines 46 to 49). -/
structure ScalingResult where
  DesiredReplicas : Int
  Reason : String
  deriving Repr, DecidableEq

/-- Embeds the min/max constraint block that every built-in algorithm repeats:
first raise to MinReplicas, then lower to MaxReplicas, exactly in that order
(algorithm.go lines 91 to 96 and the analogous blocks on every return path). -/
def applyBounds (d mn mx : Int) : Int :=
  let d1 := if d < mn then mn else d
  if d1 > mx then mx else d1

/-- Embeds the maximum-ratio loop of MaxRatioAlgorithm.ComputeScale
(algorithm.go lines 103 to 109): the accumulator starts at 1.0, so the
result is the maximum of 1 and the list elements. -/
def maxRatioFold (rs : List ℚ) : ℚ :=
  rs.foldl (fun m r => if r > m then r else m) 1

/-- Embeds the sum loop shared by the average and weighted algorithms. -/
def ratioSum (rs : List ℚ) : ℚ :=
  rs.foldl (fun s r => s + r) 0

/-- Embeds MaxRatioAlgorithm from pkg/scaling/algorithm.go (lines 66 to 70). -/
structure MaxRatioAlgorithm where
  Tolerance : ℚ
  deriving Repr, DecidableEq

/-- Embeds MaxRatioAlgorithm.ComputeScale (algorithm.go lines 85 to 142).
The local variable tolerance is initialized from input.Tolerance; the
struct field is never read. -/
def MaxRatioAlgorithm.ComputeScale (_a : MaxRatioAlgorithm) (input : ScalingInput) : ScalingResult :=
  if input.MetricRatios.length = 0 then
    ⟨applyBounds input.CurrentReplicas input.MinReplicas input.MaxReplicas,
      "no metrics available"⟩
  else if 1 - input.Tolerance ≤ maxRatioFold input.MetricRatios ∧
      maxRatioFold input.MetricRatios ≤ 1 + input.Tolerance then
    ⟨applyBounds input.CurrentReplicas input.MinReplicas input.MaxReplicas,
      "within tolerance"⟩
  else
    ⟨applyBounds (Int.ceil ((input.CurrentReplicas : ℚ) * maxRatioFold input.MetricRatios))
        input.MinReplicas input.MaxReplicas,
      "scaled based on max ratio"⟩

/-- Embeds AverageRatioAlgorithm from pkg/scaling/algorithm.go (lines 177 to 180). -/
structure AverageRatioAlgorithm where
  Tolerance : ℚ
  deriving Repr, DecidableEq

/-- Embeds AverageRatioAlgorithm.ComputeScale (algorithm.go lines 195 to 251). -/
def AverageRatioAlgorithm.ComputeScale (_a : AverageRatioAlgorithm) (input : ScalingInput) : ScalingResult :=
  if input.MetricRatios.length = 0 then
    ⟨applyBounds input.CurrentReplicas input.MinReplicas input.MaxReplicas,
      "no metrics available"⟩
  else if 1 - input.Tolerance ≤ ratioSum input.MetricRatios / (input.MetricRatios.length : ℚ) ∧
      ratioSum input.MetricRatios / (input.MetricRatios.length : ℚ) ≤ 1 + input.Tolerance then
    ⟨applyBounds input.CurrentReplicas input.MinReplicas input.MaxReplicas,
      "within tolerance"⟩
  else
    ⟨applyBounds
        (Int.ceil ((input.CurrentReplicas : ℚ) *
          (ratioSum input.MetricRatios / (input.MetricRatios.length : ℚ))))
        input.MinReplicas input.MaxReplicas,
      "scaled based on average ratio"⟩

/-- Embeds WeightedRatioAlgorithm from pkg/scaling/algorithm.go (lines 286 to 289). -/
structure WeightedRatioAlgorithm where
  Tolerance : ℚ
  Weights : List ℚ
  deriving Repr, DecidableEq

/-- Embeds WeightedRatioAlgorithm.SetWeights (algorithm.go lines 305 to 307):
the receiver field Weights is overwritten, modelled as a struct update. -/
def WeightedRatioAlgorithm.SetWeights (a : WeightedRatioAlgorithm) (weights : List ℚ) : WeightedRatioAlgorithm :=
  { a with Weights := weights }

/-- Embeds the weighted-sum loop of WeightedRatioAlgorithm.ComputeScale
(algorithm.go lines 329 to 339): for each index i the weight is
Weights[i] when i is in range and 1.0 otherwise; returns
(weightedSum, totalWeight). -/
def weightedSums (weights : List ℚ) (rs : List ℚ) : ℚ × ℚ :=
  rs.enum.foldl
    (fun acc p => (acc.1 + p.2 * weights.getD p.1 1, acc.2 + weights.getD p.1 1))
    (0, 0)

/-- Embeds WeightedRatioAlgorithm.ComputeScale (algorithm.go lines 310 to 389). -/
def WeightedRatioAlgorithm.ComputeScale (a : WeightedRatioAlgorithm) (input : ScalingInput) : ScalingResult :=
  if input.MetricRatios.length = 0 then
    ⟨applyBounds input.CurrentReplicas input.MinReplicas input.MaxReplicas,
      "no metrics available"⟩
  else if (weightedSums a.Weights input.MetricRatios).2 = 0 then
    ⟨applyBounds input.CurrentReplicas input.MinReplicas input.MaxReplicas,
      "total weight is zero"⟩
  else if 1 - input.Tolerance ≤
        (weightedSums a.Weights input.MetricRatios).1 / (weightedSums a.Weights input.MetricRatios).2 ∧
      (weightedSums a.Weights input.MetricRatios).1 / (weightedSums a.Weights input.MetricRatios).2 ≤
        1 + input.Tolerance then
    ⟨applyBounds input.CurrentReplicas input.MinReplicas input.MaxReplicas,
      "within tolerance"⟩
  else
    ⟨applyBounds
        (Int.ceil ((input.CurrentReplicas : ℚ) *
          ((weightedSums a.Weights input.MetricRatios).1 /
            (weightedSums a.Weights input.MetricRatios).2)))
        input.MinReplicas input.MaxReplicas,
      "scaled based on weighted ratio"⟩

theorem applyBounds_between (d mn mx : Int) (h : mn ≤ mx) :
    mn ≤ applyBounds d mn mx ∧ applyBounds d mn mx ≤ mx := by
  unfold applyBounds
  dsimp only
  split <;> split <;> omega

theorem maxRatioFold_init_le (rs : List ℚ) (m : ℚ) :
    m ≤ rs.foldl (fun m r => if r > m then r else m) m := by
  induction rs generalizing m with
  | nil => simp
  | cons r rs ih =>
    simp only [List.foldl_cons]
    calc m ≤ (if r > m then r else m) := by
          split
          · exact le_of_lt (by assumption)
          · exact le_refl m
    _ ≤ _ := ih _

theorem maxRatioFold_le_of_forall (rs : List ℚ) (m b : ℚ) (hm : m ≤ b)
    (h : ∀ r ∈ rs, r ≤ b) :
    rs.foldl (fun m r => if r > m then r else m) m ≤ b := by
  induction rs generalizing m with
  | nil => simpa
  | cons r rs ih =>
    simp only [List.foldl_cons]
    refine ih _ ?_ (fun x hx => h x (List.mem_cons_of_mem _ hx))
    have hr : r ≤ b := h r (List.mem_cons_self _ _)
    split <;> assumption

theorem maxRatio_desired_is_clamped (a : MaxRatioAlgorithm) (input : ScalingInput) :
    ∃ d, (a.ComputeScale input).DesiredReplicas =
      applyBounds d input.MinReplicas input.MaxReplicas := by
  unfold MaxRatioAlgorithm.ComputeScale
  split_ifs <;> exact ⟨_, rfl⟩

theorem averageRatio_desired_is_clamped (a : AverageRatioAlgorithm) (input : ScalingInput) :
    ∃ d, (a.ComputeScale input).DesiredReplicas =
      applyBounds d input.MinReplicas input.MaxReplicas := by
  unfold AverageRatioAlgorithm.ComputeScale
  split_ifs <;> exact ⟨_, rfl⟩

theorem weightedRatio_desired_is_clamped (a : WeightedRatioAlgorithm) (input : ScalingInput) :
    ∃ d, (a.ComputeScale input).DesiredReplicas =
      applyBounds d input.MinReplicas input.MaxReplicas := by
  unfold WeightedRatioAlgorithm.ComputeScale
  split_ifs <;> exact ⟨_, rfl⟩

/-- Scaling input used to exercise claim C1: one ratio equal to 1/2,
tolerance 1/10, current replicas 4, bounds 1 and 10. -/
def inputC1 : ScalingInput :=
  { CurrentReplicas := 4, MinReplicas := 1, MaxReplicas := 10,
    MetricRatios := [1/2], Tolerance := 1/10,
    PolicyName := "p", PolicyNamespace := "ns" }

end Scaling

open Scaling

/-- Claim C1 counterexample: with the single ratio 1/2, tolerance 1/10,
current replicas 4 and bounds 1 and 10, the largest ratio 1/2 lies below
1 - tolerance = 9/10, so the claim predicts the scale-down value
clamp(ceil(4 * (1/2))) = 2; but ComputeScale returns 4 via the
within-tolerance branch, because the maximum-ratio loop starts its
accumulator at 1.0 and therefore floors the summary ratio at 1. -/
theorem C1_counterexample :
    inputC1.MetricRatios = [1/2] ∧
    (1/2 : ℚ) < 1 - inputC1.Tolerance ∧
    (MaxRatioAlgorithm.ComputeScale ⟨1/10⟩ inputC1).DesiredReplicas = 4 ∧
    applyBounds (Int.ceil ((inputC1.CurrentReplicas : ℚ) * (1/2)))
      inputC1.MinReplicas inputC1.MaxReplicas = 2 := by
  refine ⟨rfl, by norm_num [inputC1], ?_, ?_⟩
  · norm_num [inputC1, MaxRatioAlgorithm.ComputeScale, maxRatioFold, applyBounds]
  · norm_num [inputC1, applyBounds]

/-- Claim C1 amended: the maximum-ratio loop starts its accumulator at 1.0,
so the summary ratio is max(1, max(ratios)); consequently, whenever the
ratio list is non-empty, every ratio is at most 1 and the tolerance is
non-negative, the summary equals 1, the within-tolerance branch fires, and
the result is the clamped current replica count — a scale-down below
clamp(currentReplicas) never occurs via MaxRatio. -/
theorem C1_maxRatio_floored_no_scale_down (a : MaxRatioAlgorithm) (input : ScalingInput)
    (htol : 0 ≤ input.Tolerance)
    (hne : ¬ input.MetricRatios.length = 0)
    (hle : ∀ r ∈ input.MetricRatios, r ≤ 1) :
    1 ≤ maxRatioFold input.MetricRatios ∧
    a.ComputeScale input =
      ⟨applyBounds input.CurrentReplicas input.MinReplicas input.MaxReplicas,
        "within tolerance"⟩ := by
  have h1 : 1 ≤ maxRatioFold input.MetricRatios := maxRatioFold_init_le _ _
  have h2 : maxRatioFold input.MetricRatios ≤ 1 :=
    maxRatioFold_le_of_forall _ _ _ le_rfl hle
  refine ⟨h1, ?_⟩
  unfold MaxRatioAlgorithm.ComputeScale
  rw [if_neg hne, if_pos ⟨by linarith, by linarith⟩]

/-- Claim C1 amended, witness at a concrete input. -/
theorem C1_maxRatio_floored_no_scale_down_witness :
    (0 ≤ inputC1.Tolerance ∧ ¬ inputC1.MetricRatios.length = 0 ∧
      (∀ r ∈ inputC1.MetricRatios, r ≤ 1)) ∧
    (1 ≤ maxRatioFold inputC1.MetricRatios ∧
      MaxRatioAlgorithm.ComputeScale ⟨1/10⟩ inputC1 =
        ⟨applyBounds inputC1.CurrentReplicas inputC1.MinReplicas inputC1.MaxReplicas,
          "within tolerance"⟩) :=
  ⟨⟨by norm_num [inputC1], by norm_num [inputC1], by norm_num [inputC1]⟩,
    C1_maxRatio_floored_no_scale_down ⟨1/10⟩ inputC1
      (by norm_num [inputC1]) (by norm_num [inputC1]) (by norm_num [inputC1])⟩

/-- Claim C2: for each built-in algorithm (MaxRatio, AverageRatio,
WeightedRatio) and every input with MinReplicas at most MaxReplicas,
ComputeScale returns DesiredReplicas within the bounds; every return path
(empty ratio list, within tolerance, zero total weight, and the scaling
path) emits a clamped value. -/
theorem C2_builtins_always_clamped (ma : MaxRatioAlgorithm) (aa : AverageRatioAlgorithm)
    (wa : WeightedRatioAlgorithm) (input : ScalingInput)
    (h : input.MinReplicas ≤ input.MaxReplicas) :
    (input.MinReplicas ≤ (ma.ComputeScale input).DesiredReplicas ∧
      (ma.ComputeScale input).DesiredReplicas ≤ input.MaxReplicas) ∧
    (input.MinReplicas ≤ (aa.ComputeScale input).DesiredReplicas ∧
      (aa.ComputeScale input).DesiredReplicas ≤ input.MaxReplicas) ∧
    (input.MinReplicas ≤ (wa.ComputeScale input).DesiredReplicas ∧
      (wa.ComputeScale input).DesiredReplicas ≤ input.MaxReplicas) := by
  obtain ⟨d1, e1⟩ := maxRatio_desired_is_clamped ma input
  obtain ⟨d2, e2⟩ := averageRatio_desired_is_clamped aa input
  obtain ⟨d3, e3⟩ := weightedRatio_desired_is_clamped wa input
  rw [e1, e2, e3]
  exact ⟨applyBounds_between d1 _ _ h, applyBounds_between d2 _ _ h,
    applyBounds_between d3 _ _ h⟩

/-- Claim C2, witness at a concrete input. -/
theorem C2_builtins_always_clamped_witness :
    inputC1.MinReplicas ≤ inputC1.MaxReplicas ∧
    ((inputC1.MinReplicas ≤
        (MaxRatioAlgorithm.ComputeScale ⟨1/10⟩ inputC1).DesiredReplicas ∧
      (MaxRatioAlgorithm.ComputeScale ⟨1/10⟩ inputC1).DesiredReplicas ≤
        inputC1.MaxReplicas) ∧
    (inputC1.MinReplicas ≤
        (AverageRatioAlgorithm.ComputeScale ⟨1/10⟩ inputC1).DesiredReplicas ∧
      (AverageRatioAlgorithm.ComputeScale ⟨1/10⟩ inputC1).DesiredReplicas ≤
        inputC1.MaxReplicas) ∧
    (inputC1.MinReplicas ≤
        (WeightedRatioAlgorithm.ComputeScale ⟨1/10, []⟩ inputC1).DesiredReplicas ∧
      (WeightedRatioAlgorithm.ComputeScale ⟨1/10, []⟩ inputC1).DesiredReplicas ≤
        inputC1.MaxReplicas)) :=
  ⟨by norm_num [inputC1],
    C2_builtins_always_clamped ⟨1/10⟩ ⟨1/10⟩ ⟨1/10, []⟩ inputC1 (by norm_num [inputC1])⟩

namespace Controller

/-- Embeds LatencyMetric from the v1alpha1 API types (fields read by the
reconciler and the webhook). -/
structure LatencyMetric where
  Enabled : Bool
  TargetP99Ms : Int
  TargetP95Ms : Int
  deriving Repr, DecidableEq

/-- Embeds GPUUtilizationMetric from the v1alpha1 API types. -/
structure GPUUtilizationMetric where
  Enabled : Bool
  TargetPercentage : Int
  deriving Repr, DecidableEq

/-- Embeds QueueDepthMetric from the v1alpha1 API types. -/
structure QueueDepthMetric where
  Enabled : Bool
  TargetDepth : Int
  deriving Repr, DecidableEq

/-- Embeds MetricsSpec from the v1alpha1 API types; the three sub-specs are
nil-able pointers in Go, modelled as Option. -/
structure MetricsSpec where
  Latency : Option LatencyMetric
  GPUUtilization : Option GPUUtilizationMetric
  RequestQueueDepth : Option QueueDepthMetric
  deriving Repr, DecidableEq

/-- Embeds the algorithm block of the policy spec. The v1alpha1 declaration
of this struct is not among the sources; the fields are exactly those the
reconciler reads at pkg/controller/reconciler.go lines 288 to 296:
Name, Tolerance and Weights. -/
structure AlgorithmSpec where
  Name : String
  Tolerance : ℚ
  Weights : List ℚ
  deriving Repr, DecidableEq

/-- Embeds the fields of AIInferenceAutoscalerPolicySpec that the
reconciler reads. -/
structure PolicySpec where
  MinReplicas : Int
  MaxReplicas : Int
  CooldownPeriod : Int
  Metrics : MetricsSpec
  Algorithm : Option AlgorithmSpec
  deriving Repr, DecidableEq

/-- Embeds CurrentMetrics from the v1alpha1 API types; all fields are
int32 in Go and default to zero. -/
structure CurrentMetrics where
  LatencyP99Ms : Int
  LatencyP95Ms : Int
  GPUUtilizationPercent : Int
  RequestQueueDepth : Int
  deriving Repr, DecidableEq

/-- The zero value of CurrentMetrics, as produced by the Go composite
literal with no fields set. -/
def CurrentMetrics.zero : CurrentMetrics := ⟨0, 0, 0, 0⟩

/-- Two's-complement wrap of an unbounded integer into the int32 range,
the semantics of Go int32 multiplication overflow. -/
def wrapInt32 (x : Int) : Int := (x + 2^31) % 2^32 - 2^31

theorem wrapInt32_eq_self (x : Int) (h1 : -(2^31) ≤ x) (h2 : x < 2^31) :
    wrapInt32 x = x := by
  unfold wrapInt32
  rw [Int.emod_eq_of_lt (by omega) (by omega)]
  omega

/-- Embeds buildMetricRatios from pkg/controller/reconciler.go
(lines 374 to 410), restructured as the concatenation of the four
conditional appends performed in source order.  Each Go float64 division
becomes rational division.  The queue-depth denominator
TargetDepth * currentReplicas is an int32 product in Go and wraps on
overflow, modelled by wrapInt32; the branch also divides without
checking currentReplicas, so the denominator can be zero or negative
(Go would produce an infinite or negative float there; rational division
by zero returns 0). -/
def buildMetricRatios (spec : PolicySpec) (currentReplicas : Int) (cm : CurrentMetrics) : List ℚ :=
  (match spec.Metrics.Latency with
    | none => []
    | some lat =>
      (if lat.Enabled ∧ lat.TargetP99Ms > 0 ∧ cm.LatencyP99Ms > 0 then
        [(cm.LatencyP99Ms : ℚ) / (lat.TargetP99Ms : ℚ)] else []) ++
      (if lat.Enabled ∧ lat.TargetP95Ms > 0 ∧ cm.LatencyP95Ms > 0 then
        [(cm.LatencyP95Ms : ℚ) / (lat.TargetP95Ms : ℚ)] else [])) ++
  (match spec.Metrics.GPUUtilization with
    | none => []
    | some gpu =>
      if gpu.Enabled ∧ gpu.TargetPercentage > 0 ∧ cm.GPUUtilizationPercent > 0 then
        [(cm.GPUUtilizationPercent : ℚ) / (gpu.TargetPercentage : ℚ)] else []) ++
  (match spec.Metrics.RequestQueueDepth with
    | none => []
    | some q =>
      if q.Enabled ∧ q.TargetDepth > 0 ∧ cm.RequestQueueDepth > 0 then
        [(cm.RequestQueueDepth : ℚ) / ((wrapInt32 (q.TargetDepth * currentReplicas) : Int) : ℚ)]
      else [])

/-- Policy spec used for claim C6: only the queue-depth signal is enabled,
with a per-replica target depth of 10. -/
def specC6 : PolicySpec :=
  { MinReplicas := 1, MaxReplicas := 10, CooldownPeriod := 300,
    Metrics := { Latency := none, GPUUtilization := none,
                 RequestQueueDepth := some ⟨true, 10⟩ },
    Algorithm := none }

/-- Metrics snapshot used for claim C6: a queue depth of 5 was observed. -/
def cmC6 : CurrentMetrics := ⟨0, 0, 0, 5⟩

end Controller

open Controller

theorem mem_ite_singleton {c : Prop} [Decidable c] {e x : ℚ}
    (hx : x ∈ (if c then [e] else ([] : List ℚ))) : c ∧ x = e := by
  split at hx <;> simp_all

/-- Claim C6 counterexample: the queue-depth emission guard in
buildMetricRatios checks only that the signal is enabled, TargetDepth > 0
and the observed queue depth > 0 — it does not check currentReplicas > 0.
With currentReplicas = 0 the guard passes and the emitted element is
5 / (10 * 0), a division by zero: +Inf in Go float semantics, 0 in this
rational embedding — in either semantics not a finite strictly positive
ratio, refuting the claim. -/
theorem C6_counterexample :
    specC6.Metrics.RequestQueueDepth = some ⟨true, 10⟩ ∧
    cmC6.RequestQueueDepth = 5 ∧
    wrapInt32 ((10 : Int) * 0) = 0 ∧
    buildMetricRatios specC6 0 cmC6 = [(5 : ℚ) / ((0 : Int) : ℚ)] ∧
    ¬ 0 < ((5 : ℚ) / ((0 : Int) : ℚ)) := by
  refine ⟨rfl, rfl, by norm_num [wrapInt32], ?_, by norm_num⟩
  norm_num [buildMetricRatios, specC6, cmC6, wrapInt32]

/-- Claim C6 amended: provided currentReplicas > 0 and the queue-depth
product TargetDepth * currentReplicas stays within the int32 range,
every element of buildMetricRatios is strictly positive — each emission
guard requires the numerator and the target to be positive, and under
these preconditions the wrapped queue denominator equals the true
product, which is positive.  The code enforces neither precondition:
with currentReplicas = 0 the guard still passes and the ratio divides by
zero, and even with currentReplicas > 0 the int32 product can wrap to a
zero or negative denominator (for example TargetDepth = 2^30 with
currentReplicas = 4). -/
theorem C6_ratios_positive (spec : PolicySpec) (currentReplicas : Int)
    (cm : CurrentMetrics) (hcur : 0 < currentReplicas)
    (hq : ∀ q, spec.Metrics.RequestQueueDepth = some q →
      q.TargetDepth * currentReplicas < 2^31) :
    ∀ x ∈ buildMetricRatios spec currentReplicas cm, 0 < x := by
  intro x hx
  unfold buildMetricRatios at hx
  simp only [List.mem_append] at hx
  rcases hx with (hx | hx) | hx
  · cases hL : spec.Metrics.Latency with
    | none => rw [hL] at hx; simp at hx
    | some lat =>
      rw [hL] at hx
      rcases List.mem_append.mp hx with hx | hx
      · obtain ⟨⟨_, hT, hV⟩, rfl⟩ := mem_ite_singleton hx
        exact div_pos (by exact_mod_cast hV) (by exact_mod_cast hT)
      · obtain ⟨⟨_, hT, hV⟩, rfl⟩ := mem_ite_singleton hx
        exact div_pos (by exact_mod_cast hV) (by exact_mod_cast hT)
  · cases hG : spec.Metrics.GPUUtilization with
    | none => rw [hG] at hx; simp at hx
    | some gpu =>
      rw [hG] at hx
      obtain ⟨⟨_, hT, hV⟩, rfl⟩ := mem_ite_singleton hx
      exact div_pos (by exact_mod_cast hV) (by exact_mod_cast hT)
  · cases hQ : spec.Metrics.RequestQueueDepth with
    | none => rw [hQ] at hx; simp at hx
    | some q =>
      rw [hQ] at hx
      obtain ⟨⟨_, hT, hV⟩, rfl⟩ := mem_ite_singleton hx
      have hwrap : wrapInt32 (q.TargetDepth * currentReplicas) =
          q.TargetDepth * currentReplicas :=
        wrapInt32_eq_self _ (by linarith [mul_pos hT hcur]) (hq q hQ)
      rw [hwrap]
      exact div_pos (by exact_mod_cast hV) (by exact_mod_cast mul_pos hT hcur)

/-- Claim C6 amended, witness: with one replica and the in-range product
10 * 1 the queue example yields the single positive ratio 1/2. -/
theorem C6_ratios_positive_witness :
    ((0 : Int) < 1 ∧
      (∀ q, specC6.Metrics.RequestQueueDepth = some q → q.TargetDepth * 1 < 2^31)) ∧
    ∀ x ∈ buildMetricRatios specC6 1 cmC6, 0 < x :=
  ⟨⟨by norm_num, by
      intro q h
      obtain rfl : (⟨true, 10⟩ : QueueDepthMetric) = q := Option.some.inj h
      norm_num⟩,
    C6_ratios_positive specC6 1 cmC6 (by norm_num) (by
      intro q h
      obtain rfl : (⟨true, 10⟩ : QueueDepthMetric) = q := Option.some.inj h
      norm_num)⟩

namespace Controller

/-- The values-and-errors the metrics client would return for the four
signal fetches of one pass; ok carries the fetched value (latency in
seconds, as the source it embeds comments), error models a failed fetch.
A nil MetricsClient is modelled as Option.none around this record. -/
structure MetricsClientOutcome where
  latencyP99 : Except Unit ℚ
  latencyP95 : Except Unit ℚ
  gpu : Except Unit ℚ
  queueDepth : Except Unit Int

/-- Go conversion int32(x) for a float64 x: truncation toward zero,
which for a rational is T-division of numerator by denominator. -/
def truncInt (q : ℚ) : Int := q.num / (q.den : Int)

/-- Embeds fetchMetrics (pkg/controller/reconciler.go lines 225 to 266).
A nil client returns the zero metrics with a nil error; each enabled
signal is fetched and its field set only when the fetch succeeds (latency
values are multiplied by 1000 before the int32 conversion); a failed
fetch leaves the field at zero.  Every return statement in the source
returns a nil error, modelled as the Option.none second component. -/
def fetchMetrics (client : Option MetricsClientOutcome) (spec : PolicySpec) :
    CurrentMetrics × Option String :=
  match client with
  | none => (CurrentMetrics.zero, none)
  | some c =>
    let cm1 : CurrentMetrics :=
      match spec.Metrics.Latency with
      | some lat =>
        if lat.Enabled then
          let cmA : CurrentMetrics :=
            if lat.TargetP99Ms > 0 then
              match c.latencyP99 with
              | .ok v => { CurrentMetrics.zero with LatencyP99Ms := truncInt (v * 1000) }
              | .error _ => CurrentMetrics.zero
            else CurrentMetrics.zero
          if lat.TargetP95Ms > 0 then
            match c.latencyP95 with
            | .ok v => { cmA with LatencyP95Ms := truncInt (v * 1000) }
            | .error _ => cmA
          else cmA
        else CurrentMetrics.zero
      | none => CurrentMetrics.zero
    let cm2 : CurrentMetrics :=
      match spec.Metrics.GPUUtilization with
      | some g =>
        if g.Enabled then
          match c.gpu with
          | .ok v => { cm1 with GPUUtilizationPercent := truncInt v }
          | .error _ => cm1
        else cm1
      | none => cm1
    let cm3 : CurrentMetrics :=
      match spec.Metrics.RequestQueueDepth with
      | some q =>
        if q.Enabled then
          match c.queueDepth with
          | .ok v => { cm2 with RequestQueueDepth := v }
          | .error _ => cm2
        else cm2
      | none => cm2
    (cm3, none)

/-- A client whose four fetches all fail this pass. -/
def failingClient : MetricsClientOutcome :=
  ⟨.error (), .error (), .error (), .error ()⟩

/-- Embeds the replica field of the target workload: Spec.Replicas is a
nil-able int32 pointer in both Deployment and StatefulSet. -/
structure Workload where
  Replicas : Option Int
  deriving Repr, DecidableEq

/-- One API call issued by scaleTarget, recorded so that the theorems can
talk about which writes were performed. -/
inductive TargetOp where
  | get (kind : String)
  | update (kind : String) (w : Workload)
  deriving Repr, DecidableEq

/-- Embeds scaleTarget (pkg/controller/reconciler.go lines 412 to 440).
The Deployment and StatefulSet switch branches are textually identical up
to the workload type and are merged into one guarded branch.  The target
is fetched (error when absent), Spec.Replicas is set to the new value and
an Update call is issued unconditionally — the source never compares the
current replica count with the requested one.  updateResult models the
API response to that Update call.  Returns the list of API operations
issued and either an error or the workload as written. -/
def scaleTarget (kind : String) (target : Option Workload) (replicas : Int)
    (updateResult : Except String Unit) : List TargetOp × Except String Workload :=
  if kind = "Deployment" ∨ kind = "StatefulSet" then
    match target with
    | none => ([TargetOp.get kind], .error "target not found")
    | some w =>
      ([TargetOp.get kind, TargetOp.update kind { w with Replicas := some replicas }],
        match updateResult with
        | .ok _ => .ok { w with Replicas := some replicas }
        | .error e => .error e)
  else
    ([], .error ("unsupported target kind: " ++ kind))

end Controller

/-- Claim C10: fetchMetrics returns a nil error for every policy spec and
every metrics-client behavior — a nil client yields the zero snapshot,
and per-signal failures only leave fields at zero (shown here for the
all-fetches-fail client) — so the Reconcile branch that reacts to a
non-nil fetchMetrics error (Ready=False, reason MetricsFetchFailed,
reconciler.go lines 119 to 124) can never run. -/
theorem C10_fetchMetrics_never_errors (client : Option MetricsClientOutcome)
    (spec : PolicySpec) :
    (fetchMetrics client spec).2 = none ∧
    fetchMetrics none spec = (CurrentMetrics.zero, none) ∧
    fetchMetrics (some failingClient) spec = (CurrentMetrics.zero, none) := by
  refine ⟨?_, rfl, ?_⟩
  · cases client <;> rfl
  · unfold fetchMetrics failingClient
    rcases spec.Metrics.Latency with _ | lat <;>
      rcases spec.Metrics.GPUUtilization with _ | g <;>
      rcases spec.Metrics.RequestQueueDepth with _ | q <;>
      simp only <;> split_ifs <;> rfl

/-- Claim C8 counterexample: scaling a Deployment that already has 3
replicas to 3 still issues an Update call (the second traced operation),
refuting the claim that the write is skipped when the target is already
at the requested count. -/
theorem C8_counterexample :
    scaleTarget "Deployment" (some ⟨some 3⟩) 3 (.ok ()) =
      ([TargetOp.get "Deployment", TargetOp.update "Deployment" ⟨some 3⟩],
        .ok ⟨some 3⟩) ∧
    TargetOp.update "Deployment" ⟨some 3⟩ ∈
      (scaleTarget "Deployment" (some ⟨some 3⟩) 3 (.ok ())).1 := by
  constructor
  · rfl
  · simp [scaleTarget]

/-- Claim C8 amended: for a supported kind and an existing target,
scaleTarget always issues exactly one Update carrying replicas = n,
whether or not the target is already at n; when the API accepts the
update the call returns without error and the written workload has
replicas = n, so the operation is idempotent in its effect on the target
but is never skipped. -/
theorem C8_scaleTarget_always_updates (kind : String) (w : Workload) (n : Int)
    (h : kind = "Deployment" ∨ kind = "StatefulSet") :
    scaleTarget kind (some w) n (.ok ()) =
      ([TargetOp.get kind, TargetOp.update kind { w with Replicas := some n }],
        .ok { w with Replicas := some n }) := by
  unfold scaleTarget
  rw [if_pos h]

/-- Claim C8 amended, witness: a StatefulSet already at 2 replicas. -/
theorem C8_scaleTarget_always_updates_witness :
    ("StatefulSet" = "Deployment" ∨ "StatefulSet" = "StatefulSet") ∧
    scaleTarget "StatefulSet" (some ⟨some 2⟩) 2 (.ok ()) =
      ([TargetOp.get "StatefulSet", TargetOp.update "StatefulSet" ⟨some 2⟩],
        .ok ⟨some 2⟩) :=
  ⟨Or.inr rfl, C8_scaleTarget_always_updates "StatefulSet" ⟨some 2⟩ 2 (Or.inr rfl)⟩

namespace Controller

/-- A registered ScalingAlgorithm value: one of the three built-ins from
pkg/scaling/algorithm.go, or an external plugin algorithm whose
ComputeScale is an arbitrary function that may fail (a non-nil Go error
is modelled as Option.none). -/
inductive Alg where
  | maxA : MaxRatioAlgorithm → Alg
  | avgA : AverageRatioAlgorithm → Alg
  | wA : WeightedRatioAlgorithm → Alg
  | custom : String → (ScalingInput → Option ScalingResult) → Alg

/-- True for the three built-in algorithm kinds. -/
def Alg.isBuiltin : Alg → Bool
  | .custom _ _ => false
  | _ => true

/-- Dispatches ComputeScale through the ScalingAlgorithm interface; the
built-ins always return a nil error (algorithm.go), so only a custom
algorithm can produce none. -/
def Alg.run : Alg → ScalingInput → Option ScalingResult
  | .maxA a, input => some (a.ComputeScale input)
  | .avgA a, input => some (a.ComputeScale input)
  | .wA a, input => some (a.ComputeScale input)
  | .custom _ f, input => f input

/-- Embeds Registry.Get (pkg/scaling/registry.go lines 95 to 105) over an
association-list model of the registry map. -/
def registryGet (r : List (String × Alg)) (name : String) : Option Alg :=
  (r.find? (fun p => p.1 = name)).map (fun p => p.2)

/-- The Go map write r.algorithms[name] = alg: replace the first entry
with that key, or append when absent. -/
def registrySet : List (String × Alg) → String → Alg → List (String × Alg)
  | [], key, v => [(key, v)]
  | p :: ps, key, v => if p.1 = key then (key, v) :: ps else p :: registrySet ps key v

/-- Embeds the DefaultAlgorithmName constant
(pkg/controller/reconciler.go line 52). -/
def DefaultAlgorithmName : String := "MaxRatio"

/-- Embeds the DefaultTolerance constant 0.1
(pkg/controller/reconciler.go line 55). -/
def DefaultTolerance : ℚ := 1/10

/-- Embeds reconciler.go lines 288 to 292: the requested algorithm name,
empty when no algorithm block is present or its Name field is empty. -/
def requestedNameOf (spec : PolicySpec) : String :=
  match spec.Algorithm with
  | some a => if a.Name ≠ "" then a.Name else ""
  | none => ""

/-- Embeds reconciler.go lines 284 and 288 to 292: the algorithm name to
look up, defaulting to MaxRatio. -/
def resolvedAlgorithmName (spec : PolicySpec) : String :=
  match spec.Algorithm with
  | some a => if a.Name ≠ "" then a.Name else DefaultAlgorithmName
  | none => DefaultAlgorithmName

/-- Embeds reconciler.go lines 285 and 293 to 294: the tolerance is the
default 0.1 unless an algorithm block is present, in which case its
Tolerance field is always honored, including an explicit zero. -/
def resolvedTolerance (spec : PolicySpec) : ℚ :=
  match spec.Algorithm with
  | some a => a.Tolerance
  | none => DefaultTolerance

/-- Embeds reconciler.go lines 286 and 295: the per-request weights,
empty (Go nil) without an algorithm block. -/
def resolvedWeights (spec : PolicySpec) : List ℚ :=
  match spec.Algorithm with
  | some a => a.Weights
  | none => []

/-- Embeds the registry-lookup-with-fallback block of
calculateDesiredReplicas (reconciler.go lines 298 to 323).  Returns the
algorithm, the name actually used, the requestedAlgorithmNotFound flag,
and whether the algorithm came from the configured registry (true) or
the global default registry (false); none models the final
keep-current-replicas fallback.  globalDefault stands for the result of
looking up MaxRatio in the seeded global DefaultRegistry. -/
def resolveAlgorithm (registry : List (String × Alg)) (globalDefault : Option Alg)
    (algorithmName requestedName : String) : Option (Alg × String × Bool × Bool) :=
  match registryGet registry algorithmName with
  | some alg => some (alg, algorithmName, false, true)
  | none =>
    match registryGet registry DefaultAlgorithmName with
    | some alg => some (alg, DefaultAlgorithmName, requestedName != "", true)
    | none =>
      match globalDefault with
      | some alg => some (alg, DefaultAlgorithmName, requestedName != "", false)
      | none => none

/-- Embeds reconciler.go lines 325 to 331: before weights from the policy
are bound, the source makes a struct copy (algoCopy := *weightedAlgo) and
calls SetWeights on the pointer to the copy, so the registered instance
is left untouched.  Returns (value of the registered instance after the
call, instance used for the computation). -/
def bindWeights (w : WeightedRatioAlgorithm) (weights : List ℚ) :
    WeightedRatioAlgorithm × WeightedRatioAlgorithm :=
  if weights.length > 0 then
    let algoCopy := w
    (w, algoCopy.SetWeights weights)
  else (w, w)

/-- Embeds reconciler.go lines 333 to 352: the ratio list, the
min-replicas default and the ScalingInput handed to the algorithm. -/
def scalingInputFor (spec : PolicySpec) (policyName policyNamespace : String)
    (currentReplicas : Int) (cm : CurrentMetrics) : ScalingInput :=
  { CurrentReplicas := currentReplicas,
    MinReplicas := if spec.MinReplicas = 0 then 1 else spec.MinReplicas,
    MaxReplicas := spec.MaxReplicas,
    MetricRatios := buildMetricRatios spec currentReplicas cm,
    Tolerance := resolvedTolerance spec,
    PolicyName := policyName,
    PolicyNamespace := policyNamespace }

/-- The tuple calculateDesiredReplicas returns (reconciler.go lines 268
to 280), extended with the value of the configured registry after the
call so that absence of shared-instance mutation is expressible. -/
structure CalcResult where
  desiredReplicas : Int
  algorithmUsed : String
  reason : String
  requestedAlgorithmNotFound : Bool
  requestedName : String
  registryAfter : List (String × Alg)

/-- Embeds reconciler.go lines 326 to 331 as seen by the computation: a
weighted algorithm with per-request weights is replaced by the
per-invocation copy carrying them; any other algorithm is used as-is. -/
def algForComputeOf (alg : Alg) (weights : List ℚ) : Alg :=
  match alg with
  | .wA w => if weights.length > 0 then .wA (bindWeights w weights).2 else .wA w
  | other => other

/-- The value of the configured registry after the weight-binding block:
the only potential mutation point is SetWeights on a weighted algorithm
obtained from the registry, and the source applies it to a copy; the
post-call value of the registered instance, (bindWeights w weights).1,
is written back at the key it was found under. -/
def registryAfterOf (registry : List (String × Alg)) (usedName : String)
    (fromRegistry : Bool) (alg : Alg) (weights : List ℚ) : List (String × Alg) :=
  match alg with
  | .wA w =>
    if fromRegistry = true ∧ weights.length > 0 then
      registrySet registry usedName (.wA (bindWeights w weights).1)
    else registry
  | _ => registry

/-- Embeds reconciler.go lines 354 to 371: a failed computation keeps the
(unclamped) current replicas with reason "computation failed"; a
successful one returns the algorithm result as-is. -/
def finishCalc (currentReplicas : Int) (usedName : String) (nf : Bool)
    (requestedName : String) (registryAfter : List (String × Alg)) :
    Option ScalingResult → CalcResult
  | none =>
    { desiredReplicas := currentReplicas, algorithmUsed := usedName,
      reason := "computation failed", requestedAlgorithmNotFound := nf,
      requestedName := requestedName, registryAfter := registryAfter }
  | some result =>
    { desiredReplicas := result.DesiredReplicas, algorithmUsed := usedName,
      reason := result.Reason, requestedAlgorithmNotFound := nf,
      requestedName := requestedName, registryAfter := registryAfter }

/-- The branch of calculateDesiredReplicas on the outcome of algorithm
resolution (reconciler.go lines 319 to 322 for the none case). -/
def calcFromResolved (registry : List (String × Alg)) (spec : PolicySpec)
    (policyName policyNamespace : String) (currentReplicas : Int)
    (cm : CurrentMetrics) : Option (Alg × String × Bool × Bool) → CalcResult
  | none =>
    { desiredReplicas := currentReplicas, algorithmUsed := DefaultAlgorithmName,
      reason := "no algorithm available",
      requestedAlgorithmNotFound := requestedNameOf spec != "",
      requestedName := requestedNameOf spec, registryAfter := registry }
  | some (alg, usedName, nf, fromRegistry) =>
    finishCalc currentReplicas usedName nf (requestedNameOf spec)
      (registryAfterOf registry usedName fromRegistry alg (resolvedWeights spec))
      ((algForComputeOf alg (resolvedWeights spec)).run
        (scalingInputFor spec policyName policyNamespace currentReplicas cm))

/-- Embeds calculateDesiredReplicas (pkg/controller/reconciler.go lines
275 to 371).  Control flow follows the source: resolve the algorithm
with fallbacks (returning currentReplicas unclamped when none is
available), bind per-request weights on a per-invocation copy for
WeightedRatio, build the input, run ComputeScale, and return
currentReplicas unclamped when the computation fails; the result of a
successful computation is returned as-is, with no further clamping by
the reconciler. -/
def calculateDesiredReplicas (registry : List (String × Alg)) (globalDefault : Option Alg)
    (spec : PolicySpec) (policyName policyNamespace : String)
    (currentReplicas : Int) (cm : CurrentMetrics) : CalcResult :=
  calcFromResolved registry spec policyName policyNamespace currentReplicas cm
    (resolveAlgorithm registry globalDefault (resolvedAlgorithmName spec) (requestedNameOf spec))

theorem finishCalc_registryAfter (cur : Int) (u : String) (nf : Bool) (rn : String)
    (ra : List (String × Alg)) (o : Option ScalingResult) :
    (finishCalc cur u nf rn ra o).registryAfter = ra := by
  cases o <;> rfl

theorem finishCalc_desired_some (cur : Int) (u : String) (nf : Bool) (rn : String)
    (ra : List (String × Alg)) (r : ScalingResult) :
    (finishCalc cur u nf rn ra (some r)).desiredReplicas = r.DesiredReplicas := rfl

theorem bindWeights_fst (w : WeightedRatioAlgorithm) (ws : List ℚ) :
    (bindWeights w ws).1 = w := by
  unfold bindWeights
  split <;> rfl

theorem registrySet_get_self (r : List (String × Alg)) (k : String) (v : Alg)
    (h : registryGet r k = some v) : registrySet r k v = r := by
  induction r with
  | nil => simp [registryGet] at h
  | cons p ps ih =>
    obtain ⟨p1, p2⟩ := p
    by_cases hk : p1 = k
    · subst hk
      have hv : p2 = v := by
        unfold registryGet at h
        rw [List.find?_cons_of_pos _ (by simp)] at h
        simpa using h
      subst hv
      simp [registrySet]
    · have h2 : registryGet ps k = some v := by
        unfold registryGet at h ⊢
        rwa [List.find?_cons_of_neg _ (by simp [hk])] at h
      simp [registrySet, hk, ih h2]

theorem resolveAlgorithm_fromRegistry (registry : List (String × Alg))
    (globalDefault : Option Alg) (an rn : String) (alg : Alg) (usedName : String) (nf : Bool)
    (h : resolveAlgorithm registry globalDefault an rn = some (alg, usedName, nf, true)) :
    registryGet registry usedName = some alg := by
  unfold resolveAlgorithm at h
  cases h1 : registryGet registry an with
  | some a =>
    rw [h1] at h
    simp only [Option.some.injEq, Prod.mk.injEq] at h
    obtain ⟨rfl, rfl, -, -⟩ := h
    exact h1
  | none =>
    rw [h1] at h
    cases h2 : registryGet registry DefaultAlgorithmName with
    | some a =>
      rw [h2] at h
      simp only [Option.some.injEq, Prod.mk.injEq] at h
      obtain ⟨rfl, rfl, -, -⟩ := h
      exact h2
    | none =>
      rw [h2] at h
      cases globalDefault with
      | none => simp at h
      | some a => simp at h

theorem calcDesired_registryAfter (registry : List (String × Alg))
    (globalDefault : Option Alg) (spec : PolicySpec) (pn ns : String)
    (cur : Int) (cm : CurrentMetrics) :
    (calculateDesiredReplicas registry globalDefault spec pn ns cur cm).registryAfter = registry := by
  unfold calculateDesiredReplicas
  cases hres : resolveAlgorithm registry globalDefault (resolvedAlgorithmName spec) (requestedNameOf spec) with
  | none => rfl
  | some t =>
    obtain ⟨alg, usedName, nf, fromReg⟩ := t
    simp only [calcFromResolved, finishCalc_registryAfter]
    cases alg with
    | maxA a => rfl
    | avgA a => rfl
    | custom n f => rfl
    | wA w0 =>
      simp only [registryAfterOf]
      split
      · rename_i hc
        obtain ⟨hfr, -⟩ := hc
        subst hfr
        rw [bindWeights_fst]
        exact registrySet_get_self _ _ _
          (resolveAlgorithm_fromRegistry _ _ _ _ _ _ _ hres)
      · rfl

/-- The always-erroring plugin algorithm used for claim C3. -/
def failingAlg : Alg := .custom "Custom" (fun _ => none)

/-- A registry holding only the failing plugin algorithm. -/
def regC3 : List (String × Alg) := [("Custom", failingAlg)]

/-- Policy spec for claim C3: bounds 2 and 5, requesting the Custom
algorithm. -/
def specC3 : PolicySpec :=
  { MinReplicas := 2, MaxReplicas := 5, CooldownPeriod := 0,
    Metrics := ⟨none, none, none⟩,
    Algorithm := some ⟨"Custom", 0, []⟩ }

end Controller

/-- Claim C3 counterexample: with a registered algorithm whose
computation fails, currentReplicas = 0 and bounds 2 and 5, the reconciler
falls back to currentReplicas and returns it as the desired count without
re-applying the bounds, so the recorded desiredReplicas 0 is below the
effective minimum 2 — the reconciler performs no clamping of its own. -/
theorem C3_counterexample :
    (calculateDesiredReplicas regC3 none specC3 "p" "ns" 0 CurrentMetrics.zero).desiredReplicas = 0 ∧
    (calculateDesiredReplicas regC3 none specC3 "p" "ns" 0 CurrentMetrics.zero).reason =
      "computation failed" ∧
    (if specC3.MinReplicas = 0 then (1 : Int) else specC3.MinReplicas) = 2 ∧
    ¬ ((2 : Int) ≤ 0) :=
  ⟨rfl, rfl, rfl, by norm_num⟩

/-- Claim C3 amended: the reconciler computes the effective minimum
(minReplicas defaulting to 1 when 0) and passes the bounds to the
algorithm, but performs no clamping of its own; the recorded
desiredReplicas is within bounds only on the paths where the resolved
algorithm is one of the built-ins, whose internal clamping guarantees it
whenever the effective minimum is at most maxReplicas.  On the
compute-failure and no-algorithm fallback paths the unclamped
currentReplicas is recorded. -/
theorem C3_builtin_paths_clamped (registry : List (String × Controller.Alg))
    (globalDefault : Option Controller.Alg) (spec : PolicySpec) (pn ns : String)
    (cur : Int) (cm : CurrentMetrics) (alg : Controller.Alg) (usedName : String)
    (nf fromReg : Bool)
    (hres : resolveAlgorithm registry globalDefault (resolvedAlgorithmName spec)
      (requestedNameOf spec) = some (alg, usedName, nf, fromReg))
    (hb : alg.isBuiltin = true)
    (hmm : (if spec.MinReplicas = 0 then (1 : Int) else spec.MinReplicas) ≤ spec.MaxReplicas) :
    (if spec.MinReplicas = 0 then (1 : Int) else spec.MinReplicas) ≤
      (calculateDesiredReplicas registry globalDefault spec pn ns cur cm).desiredReplicas ∧
    (calculateDesiredReplicas registry globalDefault spec pn ns cur cm).desiredReplicas ≤
      spec.MaxReplicas := by
  have hmin : (scalingInputFor spec pn ns cur cm).MinReplicas =
      (if spec.MinReplicas = 0 then (1 : Int) else spec.MinReplicas) := rfl
  have hmax : (scalingInputFor spec pn ns cur cm).MaxReplicas = spec.MaxReplicas := rfl
  unfold calculateDesiredReplicas
  rw [hres]
  cases alg with
  | custom n f => simp [Controller.Alg.isBuiltin] at hb
  | maxA a =>
    obtain ⟨d, e⟩ := maxRatio_desired_is_clamped a (scalingInputFor spec pn ns cur cm)
    simp only [Controller.calcFromResolved, Controller.algForComputeOf,
      Controller.Alg.run, Controller.finishCalc_desired_some]
    rw [hmin, hmax] at e
    rw [e]
    exact applyBounds_between d _ _ hmm
  | avgA a =>
    obtain ⟨d, e⟩ := averageRatio_desired_is_clamped a (scalingInputFor spec pn ns cur cm)
    simp only [Controller.calcFromResolved, Controller.algForComputeOf,
      Controller.Alg.run, Controller.finishCalc_desired_some]
    rw [hmin, hmax] at e
    rw [e]
    exact applyBounds_between d _ _ hmm
  | wA w0 =>
    simp only [Controller.calcFromResolved, Controller.algForComputeOf]
    by_cases hw : (resolvedWeights spec).length > 0
    · rw [if_pos hw]
      obtain ⟨d, e⟩ := weightedRatio_desired_is_clamped
        ((bindWeights w0 (resolvedWeights spec)).2) (scalingInputFor spec pn ns cur cm)
      rw [hmin, hmax] at e
      simp only [Controller.Alg.run, Controller.finishCalc_desired_some, e]
      exact applyBounds_between d _ _ hmm
    · rw [if_neg hw]
      obtain ⟨d, e⟩ := weightedRatio_desired_is_clamped w0 (scalingInputFor spec pn ns cur cm)
      rw [hmin, hmax] at e
      simp only [Controller.Alg.run, Controller.finishCalc_desired_some, e]
      exact applyBounds_between d _ _ hmm

namespace Controller

/-- A registry holding only the built-in MaxRatio algorithm. -/
def regMax : List (String × Alg) := [("MaxRatio", .maxA ⟨1/10⟩)]

/-- Policy spec for the C7 witness: an algorithm block requesting
WeightedRatio with an explicit tolerance of 0. -/
def specC7 : PolicySpec :=
  { MinReplicas := 1, MaxReplicas := 10, CooldownPeriod := 0,
    Metrics := ⟨none, none, none⟩,
    Algorithm := some ⟨"WeightedRatio", 0, [1, 2]⟩ }

/-- A registry holding a WeightedRatio instance with weights [5]. -/
def regC9 : List (String × Alg) := [("WeightedRatio", .wA ⟨1/10, [5]⟩)]

/-- Policy spec for the C9 witness: requests WeightedRatio with
per-request weights [1, 2]. -/
def specC9 : PolicySpec :=
  { MinReplicas := 1, MaxReplicas := 10, CooldownPeriod := 0,
    Metrics := ⟨none, none, none⟩,
    Algorithm := some ⟨"WeightedRatio", 1/10, [1, 2]⟩ }

end Controller

/-- Claim C3 amended, witness: with MaxRatio registered and no metrics,
current replicas 2 stays within the bounds 1 and 10. -/
theorem C3_builtin_paths_clamped_witness :
    resolveAlgorithm regMax none (resolvedAlgorithmName specC6) (requestedNameOf specC6) =
      some (Controller.Alg.maxA ⟨1/10⟩, "MaxRatio", false, true) ∧
    (Controller.Alg.maxA (⟨1/10⟩ : MaxRatioAlgorithm)).isBuiltin = true ∧
    (if specC6.MinReplicas = 0 then (1 : Int) else specC6.MinReplicas) ≤ specC6.MaxReplicas ∧
    ((if specC6.MinReplicas = 0 then (1 : Int) else specC6.MinReplicas) ≤
        (calculateDesiredReplicas regMax none specC6 "p" "ns" 2 CurrentMetrics.zero).desiredReplicas ∧
      (calculateDesiredReplicas regMax none specC6 "p" "ns" 2 CurrentMetrics.zero).desiredReplicas ≤
        specC6.MaxReplicas) :=
  ⟨rfl, rfl, by decide,
    C3_builtin_paths_clamped regMax none specC6 "p" "ns" 2 CurrentMetrics.zero
      (Controller.Alg.maxA ⟨1/10⟩) "MaxRatio" false true rfl rfl (by decide)⟩

/-- Claim C7: the tolerance carried in the ScalingInput built by the
reconciler is the default 0.1 when no algorithm block is present and
exactly the tolerance of the block when one is (an explicit 0 included);
and each built-in ComputeScale reads only input.Tolerance — changing the
tolerance stored in the algorithm instance never changes the result. -/
theorem C7_input_tolerance_wins (spec : PolicySpec) (pn ns : String) (cur : Int)
    (cm : CurrentMetrics) (a : AlgorithmSpec) (t1 t2 : ℚ) (w : List ℚ)
    (input : ScalingInput) :
    (spec.Algorithm = none → (scalingInputFor spec pn ns cur cm).Tolerance = DefaultTolerance) ∧
    (spec.Algorithm = some a → (scalingInputFor spec pn ns cur cm).Tolerance = a.Tolerance) ∧
    MaxRatioAlgorithm.ComputeScale ⟨t1⟩ input = MaxRatioAlgorithm.ComputeScale ⟨t2⟩ input ∧
    AverageRatioAlgorithm.ComputeScale ⟨t1⟩ input = AverageRatioAlgorithm.ComputeScale ⟨t2⟩ input ∧
    WeightedRatioAlgorithm.ComputeScale ⟨t1, w⟩ input =
      WeightedRatioAlgorithm.ComputeScale ⟨t2, w⟩ input := by
  refine ⟨?_, ?_, rfl, rfl, rfl⟩
  · intro h
    show resolvedTolerance spec = DefaultTolerance
    unfold resolvedTolerance
    rw [h]
  · intro h
    show resolvedTolerance spec = a.Tolerance
    unfold resolvedTolerance
    rw [h]

/-- Claim C7, witness: the explicit tolerance 0 of the C7 policy spec is
carried into the ScalingInput unchanged. -/
theorem C7_input_tolerance_wins_witness :
    specC7.Algorithm = some (⟨"WeightedRatio", 0, [1, 2]⟩ : AlgorithmSpec) ∧
    (scalingInputFor specC7 "p" "ns" 2 CurrentMetrics.zero).Tolerance = 0 :=
  ⟨rfl,
    (C7_input_tolerance_wins specC7 "p" "ns" 2 CurrentMetrics.zero
      ⟨"WeightedRatio", 0, [1, 2]⟩ 0 0 [] inputC1).2.1 rfl⟩

/-- Claim C9: per-request weights are bound to a per-invocation copy, so
the configured registry is unchanged after calculateDesiredReplicas (in
particular a registered WeightedRatioAlgorithm keeps its Weights field),
while the copy used for the computation carries the requested weights. -/
theorem C9_weights_bound_on_copy (registry : List (String × Controller.Alg))
    (globalDefault : Option Controller.Alg) (spec : PolicySpec) (pn ns : String)
    (cur : Int) (cm : CurrentMetrics) (w : WeightedRatioAlgorithm) (ws : List ℚ) :
    (calculateDesiredReplicas registry globalDefault spec pn ns cur cm).registryAfter = registry ∧
    (bindWeights w ws).1 = w ∧
    (ws.length > 0 → ((bindWeights w ws).2).Weights = ws) := by
  refine ⟨calcDesired_registryAfter _ _ _ _ _ _ _, bindWeights_fst w ws, ?_⟩
  intro hw
  unfold bindWeights
  rw [if_pos hw]
  rfl

/-- Claim C9, witness: binding the weights [1, 2] over a registered
WeightedRatio instance with weights [5] leaves the registry unchanged
and the invocation copy carries [1, 2]. -/
theorem C9_weights_bound_on_copy_witness :
    (([1, 2] : List ℚ)).length > 0 ∧
    ((bindWeights ⟨1/10, [5]⟩ [1, 2]).2).Weights = [1, 2] ∧
    (calculateDesiredReplicas regC9 none specC9 "p" "ns" 2 CurrentMetrics.zero).registryAfter =
      regC9 :=
  ⟨by norm_num,
    (C9_weights_bound_on_copy regC9 none specC9 "p" "ns" 2 CurrentMetrics.zero
      ⟨1/10, [5]⟩ [1, 2]).2.2 (by norm_num),
    (C9_weights_bound_on_copy regC9 none specC9 "p" "ns" 2 CurrentMetrics.zero
      ⟨1/10, [5]⟩ [1, 2]).1⟩

namespace Controller

/-- The Go map read r.LastScaleTime[policyKey] over an association-list
model of the cooldown ledger. -/
def ledgerGet (ledger : List (String × Int)) (key : String) : Option Int :=
  (ledger.find? (fun p => p.1 = key)).map (fun p => p.2)

/-- The Go map write r.LastScaleTime[policyKey] = now: replace the first
entry with that key, or append when absent. -/
def ledgerSet : List (String × Int) → String → Int → List (String × Int)
  | [], key, t => [(key, t)]
  | p :: ps, key, t => if p.1 = key then (key, t) :: ps else p :: ledgerSet ps key t

/-- Embeds DefaultCooldownPeriod, 300 seconds (reconciler.go line 46). -/
def DefaultCooldownSeconds : Int := 300

/-- Embeds the cooldown gate condition (reconciler.go lines 149 to 160):
a ledger entry exists, the effective cooldown (the spec value in seconds,
defaulting to 300 when zero) has not yet elapsed since it, and the
desired count differs from the current one.  Time is modelled in
seconds. -/
def cooldownBlocked (ledger : List (String × Int)) (policyKey : String)
    (cooldownSpec now current desired : Int) : Bool :=
  match ledgerGet ledger policyKey with
  | some lastScale =>
    decide (now - lastScale <
        (if cooldownSpec = 0 then DefaultCooldownSeconds else cooldownSpec)) &&
      decide (desired ≠ current)
  | none => false

/-- What the scale-and-status phase of one Reconcile pass did: the ledger
after the pass, whether a replica write was attempted, the Scaling
condition written (with its status and reason), the desiredReplicas
value recorded by updateStatus (none when the pass returned before the
status update), and whether Ready=True was set at the end. -/
structure ReconcileOutcome where
  ledger : List (String × Int)
  scaleAttempted : Bool
  scalingCondition : Option (Bool × String)
  statusDesired : Option Int
  readyConditionSet : Bool
  deriving Repr, DecidableEq

/-- Embeds the scale-and-status phase of Reconcile
(pkg/controller/reconciler.go lines 147 to 188), after desiredReplicas
has been computed.  When the cooldown gate blocks, the pass returns
immediately — before the scale write, the status update and the Ready
condition.  Otherwise, when desired differs from current, scaleTarget is
called (writeSucceeds models its outcome): on failure the pass sets
Scaling=False with reason ScaleFailed and returns without touching the
ledger or the status; on success the ledger entry is set to now and
Scaling=True with reason Scaled is recorded.  Any pass that reaches the
end records desiredReplicas in the status and sets Ready=True. -/
def reconcileScalePhase (ledger : List (String × Int)) (policyKey : String)
    (cooldownSpec now current desired : Int) (writeSucceeds : Bool) : ReconcileOutcome :=
  if cooldownBlocked ledger policyKey cooldownSpec now current desired then
    { ledger := ledger, scaleAttempted := false, scalingCondition := none,
      statusDesired := none, readyConditionSet := false }
  else if desired ≠ current then
    if writeSucceeds then
      { ledger := ledgerSet ledger policyKey now, scaleAttempted := true,
        scalingCondition := some (true, "Scaled"), statusDesired := some desired,
        readyConditionSet := true }
    else
      { ledger := ledger, scaleAttempted := true,
        scalingCondition := some (false, "ScaleFailed"), statusDesired := none,
        readyConditionSet := false }
  else
    { ledger := ledger, scaleAttempted := false, scalingCondition := none,
      statusDesired := some desired, readyConditionSet := true }

/-- The cooldown ledger used in the C5 scenario: the policy last scaled
at second 100. -/
def ledgerC5 : List (String × Int) := [("ns/p", 100)]

end Controller

/-- Claim C4: the cooldown ledger entry is written (set to now) exactly
when desired differs from current, the cooldown gate allowed the pass,
and the replica write succeeded; and when the write fails the ledger is
left unchanged and the Scaling condition is set to False with reason
ScaleFailed. -/
theorem C4_ledger_written_iff_scaled (ledger : List (String × Int)) (policyKey : String)
    (cooldownSpec now current desired : Int) (writeSucceeds : Bool) :
    ((reconcileScalePhase ledger policyKey cooldownSpec now current desired writeSucceeds).ledger =
      if cooldownBlocked ledger policyKey cooldownSpec now current desired = false ∧
          desired ≠ current ∧ writeSucceeds = true then
        ledgerSet ledger policyKey now
      else ledger) ∧
    (cooldownBlocked ledger policyKey cooldownSpec now current desired = false →
      desired ≠ current → writeSucceeds = false →
      (reconcileScalePhase ledger policyKey cooldownSpec now current desired writeSucceeds).ledger =
          ledger ∧
        (reconcileScalePhase ledger policyKey cooldownSpec now current desired
            writeSucceeds).scalingCondition = some (false, "ScaleFailed")) := by
  unfold reconcileScalePhase
  cases hb : cooldownBlocked ledger policyKey cooldownSpec now current desired <;>
    cases writeSucceeds <;>
    by_cases hd : desired = current <;>
    simp_all

/-- Claim C4, witness: an eligible pass (last scale 400 seconds ago,
cooldown 300) whose write fails leaves the ledger alone and records
Scaling=False, ScaleFailed. -/
theorem C4_ledger_written_iff_scaled_witness :
    cooldownBlocked [("ns/p", 100)] "ns/p" 300 500 2 4 = false ∧
    (4 : Int) ≠ 2 ∧
    ((reconcileScalePhase [("ns/p", 100)] "ns/p" 300 500 2 4 false).ledger = [("ns/p", 100)] ∧
      (reconcileScalePhase [("ns/p", 100)] "ns/p" 300 500 2 4 false).scalingCondition =
        some (false, "ScaleFailed")) :=
  ⟨by decide, by decide,
    (C4_ledger_written_iff_scaled [("ns/p", 100)] "ns/p" 300 500 2 4 false).2
      (by decide) (by decide) rfl⟩

/-- Claim C5 counterexample: a pass 30 seconds after the last scale under
cooldown 300 that would scale 2 to 4 returns at the cooldown gate: the
ledger keeps its old entry, no condition is written, and — contrary to
the claim — the computed desiredReplicas 4 is NOT recorded in the status,
because the gate returns before the status update. -/
theorem C5_counterexample :
    reconcileScalePhase ledgerC5 "ns/p" 300 130 2 4 true =
      ⟨ledgerC5, false, none, none, false⟩ ∧
    (reconcileScalePhase ledgerC5 "ns/p" 300 130 2 4 true).statusDesired ≠ some 4 := by
  constructor
  · decide
  · decide

/-- Claim C5 amended: when the computed desired differs from current and
the cooldown has not elapsed, the reconciler skips the replica write and
requeues, but it also returns before updateStatus runs: the pass records
nothing — no desiredReplicas, no condition — and leaves the ledger
unchanged. -/
theorem C5_cooldown_skips_status (ledger : List (String × Int)) (policyKey : String)
    (cooldownSpec now current desired : Int) (writeSucceeds : Bool)
    (hb : cooldownBlocked ledger policyKey cooldownSpec now current desired = true) :
    reconcileScalePhase ledger policyKey cooldownSpec now current desired writeSucceeds =
      ⟨ledger, false, none, none, false⟩ := by
  unfold reconcileScalePhase
  simp [hb]

/-- Claim C5 amended, witness: the blocked pass of the C5 scenario. -/
theorem C5_cooldown_skips_status_witness :
    cooldownBlocked ledgerC5 "ns/p" 300 130 2 4 = true ∧
    reconcileScalePhase ledgerC5 "ns/p" 300 130 2 4 true =
      ⟨ledgerC5, false, none, none, false⟩ :=
  ⟨by decide, C5_cooldown_skips_status ledgerC5 "ns/p" 300 130 2 4 true (by decide)⟩

